import Mathlib

/-!
Verification development for the retirement-planner core.

The TypeScript source is shallowly embedded over `ℚ`: JavaScript numbers
carrying currency amounts, rates and divisors become rationals, and the
JavaScript value `Infinity` that appears as the `max` of the final tax
bracket becomes `none` in an `Option ℚ` field.  Loops over bracket lists
become structural recursions, and JavaScript truthiness tests on optional
numeric fields are modelled explicitly.  Ages are natural numbers.
-/

/-- Filing status (`src/types`): `'single' | 'married_filing_jointly'`.
Any other string routes to the single-filer tables in the source, so the
two-constructor type is faithful. -/
inductive FilingStatus where
  | single
  | married_filing_jointly
deriving DecidableEq

/-- Account categories (`src/types`).  The snapshot's type declaration lists
the six US categories; the projection and Canada modules additionally
reference `employer_rrsp`, `rrsp`, `rrif`, `tfsa` and `non_registered`,
so those constructors are included as well. -/
inductive AccountType where
  | traditional_401k
  | roth_401k
  | traditional_ira
  | roth_ira
  | taxable
  | hsa
  | employer_rrsp
  | rrsp
  | rrif
  | tfsa
  | non_registered
deriving DecidableEq

/-- Tax treatment categories (`src/types`). -/
inductive TaxTreatment where
  | pretax
  | roth
  | taxable
  | hsa
deriving DecidableEq

/-- Source `src/types` `is401k` — traditional or Roth 401(k). -/
def is401k (t : AccountType) : Bool :=
  t == AccountType.traditional_401k || t == AccountType.roth_401k

/-- Source `src/types` `isTraditional` — the pretax categories subject to RMDs. -/
def isTraditional (t : AccountType) : Bool :=
  t == AccountType.traditional_401k || t == AccountType.traditional_ira

/-- A tax bracket (`src/types`): `min`, `max`, `rate`.  `max = none`
models the JavaScript `Infinity` used by each table's final bracket. -/
structure TaxBracket where
  min : ℚ
  max : Option ℚ
  rate : ℚ
deriving DecidableEq

/-- An RMD table entry (`src/types`): `(age, divisor)`. -/
structure RMDEntry where
  age : ℕ
  divisor : ℚ
deriving DecidableEq

/-- An RRIF minimum table entry (`src/countries/canada/constants.ts`). -/
structure RRIFEntry where
  age : ℕ
  minimumPercentage : ℚ
deriving DecidableEq

/-- A savings account (`src/types`).  The optional employer-match fields
are `Option ℚ` so that the JavaScript truthiness checks (`undefined` and
`0` both falsy) can be modelled exactly. -/
structure Account where
  id : ℕ
  type : AccountType
  balance : ℚ
  annualContribution : ℚ
  contributionGrowthRate : ℚ
  returnRate : ℚ
  employerMatchPercent : Option ℚ
  employerMatchLimit : Option ℚ
deriving DecidableEq

/-- Person-level parameters (`src/types`). -/
structure Profile where
  currentAge : ℕ
  retirementAge : ℕ
  lifeExpectancy : ℕ
  filingStatus : FilingStatus
  stateTaxRate : ℚ
deriving DecidableEq

/-! ## US constants (`src/countries/usa/constants.ts`) -/

/-- Federal tax brackets for 2024, married filing jointly. -/
def TAX_BRACKETS_MFJ : List TaxBracket :=
  [⟨0, some 23200, 0.10⟩,
   ⟨23200, some 94300, 0.12⟩,
   ⟨94300, some 201050, 0.22⟩,
   ⟨201050, some 383900, 0.24⟩,
   ⟨383900, some 487450, 0.32⟩,
   ⟨487450, some 731200, 0.35⟩,
   ⟨731200, none, 0.37⟩]

/-- Federal tax brackets for 2024, single. -/
def TAX_BRACKETS_SINGLE : List TaxBracket :=
  [⟨0, some 11600, 0.10⟩,
   ⟨11600, some 47150, 0.12⟩,
   ⟨47150, some 100525, 0.22⟩,
   ⟨100525, some 191950, 0.24⟩,
   ⟨191950, some 243725, 0.32⟩,
   ⟨243725, some 609350, 0.35⟩,
   ⟨609350, none, 0.37⟩]

/-- Standard deduction for 2024, married filing jointly. -/
def STANDARD_DEDUCTION_MFJ : ℚ := 29200

/-- Standard deduction for 2024, single. -/
def STANDARD_DEDUCTION_SINGLE : ℚ := 14600

/-- Long-term capital gains brackets for 2024, married filing jointly. -/
def CAPITAL_GAINS_BRACKETS_MFJ : List TaxBracket :=
  [⟨0, some 94050, 0⟩,
   ⟨94050, some 583750, 0.15⟩,
   ⟨583750, none, 0.20⟩]

/-- Long-term capital gains brackets for 2024, single. -/
def CAPITAL_GAINS_BRACKETS_SINGLE : List TaxBracket :=
  [⟨0, some 47025, 0⟩,
   ⟨47025, some 518900, 0.15⟩,
   ⟨518900, none, 0.20⟩]

/-- RMDs start at age 73 (SECURE 2.0). -/
def RMD_START_AGE : ℕ := 73

/-- IRS Uniform Lifetime Table (`src/countries/usa/constants.ts`). -/
def RMD_TABLE : List RMDEntry :=
  [⟨73, 26.5⟩, ⟨74, 25.5⟩, ⟨75, 24.6⟩, ⟨76, 23.7⟩, ⟨77, 22.9⟩,
   ⟨78, 22.0⟩, ⟨79, 21.1⟩, ⟨80, 20.2⟩, ⟨81, 19.4⟩, ⟨82, 18.5⟩,
   ⟨83, 17.7⟩, ⟨84, 16.8⟩, ⟨85, 16.0⟩, ⟨86, 15.2⟩, ⟨87, 14.4⟩,
   ⟨88, 13.7⟩, ⟨89, 12.9⟩, ⟨90, 12.2⟩, ⟨91, 11.5⟩, ⟨92, 10.8⟩,
   ⟨93, 10.1⟩, ⟨94, 9.5⟩, ⟨95, 8.9⟩, ⟨96, 8.4⟩, ⟨97, 7.8⟩,
   ⟨98, 7.3⟩, ⟨99, 6.8⟩, ⟨100, 6.4⟩, ⟨101, 6.0⟩, ⟨102, 5.6⟩,
   ⟨103, 5.2⟩, ⟨104, 4.9⟩, ⟨105, 4.6⟩, ⟨106, 4.3⟩, ⟨107, 4.1⟩,
   ⟨108, 3.9⟩, ⟨109, 3.7⟩, ⟨110, 3.5⟩, ⟨111, 3.4⟩, ⟨112, 3.3⟩,
   ⟨113, 3.1⟩, ⟨114, 3.0⟩, ⟨115, 2.9⟩, ⟨116, 2.8⟩, ⟨117, 2.7⟩,
   ⟨118, 2.5⟩, ⟨119, 2.3⟩, ⟨120, 2.0⟩]

/-! ## US tax engine (`src/countries/usa/taxes.ts`) -/

/-- Source function `getTaxBrackets`. -/
def getTaxBrackets : FilingStatus → List TaxBracket
  | FilingStatus.married_filing_jointly => TAX_BRACKETS_MFJ
  | FilingStatus.single => TAX_BRACKETS_SINGLE

/-- Source function `getStandardDeduction`. -/
def getStandardDeduction : FilingStatus → ℚ
  | FilingStatus.married_filing_jointly => STANDARD_DEDUCTION_MFJ
  | FilingStatus.single => STANDARD_DEDUCTION_SINGLE

/-- Source function `getCapitalGainsBrackets`. -/
def getCapitalGainsBrackets : FilingStatus → List TaxBracket
  | FilingStatus.married_filing_jointly => CAPITAL_GAINS_BRACKETS_MFJ
  | FilingStatus.single => CAPITAL_GAINS_BRACKETS_SINGLE

/-- The `for (const bracket of brackets)` loop body of
`calculateFederalIncomeTax`: each step taxes
`min(remainingIncome, bracket.max - bracket.min)` at the bracket's rate and
breaks once no income lands in the bracket.  A `none` max (JS `Infinity`)
gives infinite width, so the whole remainder lands there. -/
def fedTaxLoop : List TaxBracket → ℚ → ℚ
  | [], _ => 0
  | b :: bs, remainingIncome =>
    let incomeInBracket :=
      match b.max with
      | none => remainingIncome
      | some m => min remainingIncome (m - b.min)
    if incomeInBracket ≤ 0 then 0
    else incomeInBracket * b.rate + fedTaxLoop bs (remainingIncome - incomeInBracket)

/-- Source function `calculateFederalIncomeTax`. -/
def calculateFederalIncomeTax (taxableIncome : ℚ) (filingStatus : FilingStatus) : ℚ :=
  if taxableIncome ≤ 0 then 0
  else fedTaxLoop (getTaxBrackets filingStatus) taxableIncome

/-- The bracket loop of `calculateCapitalGainsTax`, threading
`currentIncome` and `remainingGains`.  `roomInBracket` is
`max 0 (bracket.max - currentIncome)` (infinite for the final bracket), the
gains placed in the bracket are `min remainingGains roomInBracket`, and only
the sub-portion above `max bracket.min currentIncome` is taxed. -/
def cgLoop : List TaxBracket → ℚ → ℚ → ℚ
  | [], _, _ => 0
  | b :: bs, currentIncome, remainingGains =>
    if remainingGains ≤ 0 then 0
    else
      let gainsInBracket :=
        match b.max with
        | none => remainingGains
        | some m => min remainingGains (max 0 (m - currentIncome))
      let taxHere :=
        if 0 < gainsInBracket ∧ b.min < currentIncome + gainsInBracket then
          min gainsInBracket (currentIncome + gainsInBracket - max b.min currentIncome) * b.rate
        else 0
      taxHere + cgLoop bs (currentIncome + gainsInBracket) (remainingGains - gainsInBracket)

/-- Source function `calculateCapitalGainsTax`. -/
def calculateCapitalGainsTax (capitalGains otherTaxableIncome : ℚ)
    (filingStatus : FilingStatus) : ℚ :=
  if capitalGains ≤ 0 then 0
  else
    cgLoop (getCapitalGainsBrackets filingStatus)
      (max 0 (otherTaxableIncome - getStandardDeduction filingStatus)) capitalGains

/-- Source function `calculateTotalFederalTax`. -/
def calculateTotalFederalTax (ordinaryIncome capitalGains : ℚ)
    (filingStatus : FilingStatus) : ℚ :=
  calculateFederalIncomeTax
      (max 0 (ordinaryIncome - getStandardDeduction filingStatus)) filingStatus
    + calculateCapitalGainsTax capitalGains ordinaryIncome filingStatus

/-- Source function `getWithdrawalToFillBracket` (`src/utils/taxes.ts`).  The result is
`Option ℚ`, `none` standing for the JS `Infinity` returned when the target
bracket is the unbounded final one. -/
def getWithdrawalToFillBracket (currentOrdinaryIncome targetBracketRate : ℚ)
    (filingStatus : FilingStatus) : Option ℚ :=
  let standardDeduction := getStandardDeduction filingStatus
  match (getTaxBrackets filingStatus).find? (fun b => b.rate == targetBracketRate) with
  | none => some 0
  | some targetBracket =>
    let currentTaxable := max 0 (currentOrdinaryIncome - standardDeduction)
    let deductionRoom :=
      if currentOrdinaryIncome < standardDeduction
      then standardDeduction - currentOrdinaryIncome else 0
    match targetBracket.max with
    | none => none
    | some m =>
      if m ≤ currentTaxable then some 0
      else some (m - max currentTaxable targetBracket.min + deductionRoom)

/-! ## US RMDs (`src/countries/usa/withdrawals.ts`) -/

/-- Source function `getRMDDivisor`: exact-age table lookup; 0 below the start age; for
ages beyond the table, 2.0 past age 120 and 0 otherwise. -/
def getRMDDivisor (age : ℕ) : ℚ :=
  if age < RMD_START_AGE then 0
  else
    match RMD_TABLE.find? (fun e => e.age == age) with
    | some entry => entry.divisor
    | none => if 120 < age then 2.0 else 0

/-- Source function `calculateRMD`: balance divided by the divisor, with guards for
non-pretax categories, pre-start ages, non-positive balances and a zero
divisor. -/
def calculateRMD (age : ℕ) (balance : ℚ) (accountType : AccountType) : ℚ :=
  if !isTraditional accountType then 0
  else if age < RMD_START_AGE then 0
  else if balance ≤ 0 then 0
  else
    let divisor := getRMDDivisor age
    if divisor = 0 then 0 else balance / divisor

/-! ## Canada (`src/countries/canada/constants.ts`, `withdrawals.ts`,
and the benefits module) -/

/-- RRSPs must convert to RRIFs by the end of the year turning 71. -/
def RRIF_START_AGE : ℕ := 71

/-- RRIF minimum withdrawal percentages (2024). -/
def RRIF_MINIMUM_TABLE : List RRIFEntry :=
  [⟨71, 0.0528⟩, ⟨72, 0.0540⟩, ⟨73, 0.0553⟩, ⟨74, 0.0567⟩, ⟨75, 0.0582⟩,
   ⟨76, 0.0598⟩, ⟨77, 0.0617⟩, ⟨78, 0.0636⟩, ⟨79, 0.0658⟩, ⟨80, 0.0682⟩,
   ⟨81, 0.0708⟩, ⟨82, 0.0738⟩, ⟨83, 0.0771⟩, ⟨84, 0.0808⟩, ⟨85, 0.0851⟩,
   ⟨86, 0.0899⟩, ⟨87, 0.0955⟩, ⟨88, 0.1021⟩, ⟨89, 0.1099⟩, ⟨90, 0.1192⟩,
   ⟨91, 0.1306⟩, ⟨92, 0.1449⟩, ⟨93, 0.1634⟩, ⟨94, 0.1879⟩, ⟨95, 0.20⟩]

/-- Source function `getRRIFMinimumPercentage`: exact-age lookup, 0 below the start age,
and 20% for ages beyond the table (the `age >= 95` branch). -/
def getRRIFMinimumPercentage (age : ℕ) : ℚ :=
  if age < RRIF_START_AGE then 0
  else
    match RRIF_MINIMUM_TABLE.find? (fun e => e.age == age) with
    | some entry => entry.minimumPercentage
    | none => if 95 ≤ age then 0.20 else 0

/-- OAS clawback threshold, 2024. -/
def OAS_CLAWBACK_THRESHOLD : ℚ := 86912

/-- OAS clawback (recovery tax) rate. -/
def OAS_CLAWBACK_RATE : ℚ := 0.15

/-- Income at which OAS is fully clawed back. -/
def OAS_CLAWBACK_ELIMINATION : ℚ := 142609

/-- Source function `calculateOASClawback` (Canada benefits module): 15% of income above
the threshold, the full OAS amount above the elimination threshold, capped
at the OAS amount. -/
def calculateOASClawback (netIncome oasAmount : ℚ) : ℚ :=
  if netIncome ≤ OAS_CLAWBACK_THRESHOLD then 0
  else if OAS_CLAWBACK_ELIMINATION ≤ netIncome then oasAmount
  else min ((netIncome - OAS_CLAWBACK_THRESHOLD) * OAS_CLAWBACK_RATE) oasAmount

/-! ## Accumulation projector (`src/utils/projections.ts`) -/

/-- JavaScript truthiness of an optional numeric field:
`undefined` and `0` are falsy. -/
def isFalsyNum : Option ℚ → Bool
  | none => true
  | some x => x == 0

/-- Replace an account's annual contribution (the source passes
`\x7b ...account, annualContribution: currentContribution \x7d` to the
employer-match helper). -/
def withContribution (account : Account) (contribution : ℚ) : Account :=
  ⟨account.id, account.type, account.balance, contribution,
   account.contributionGrowthRate, account.returnRate,
   account.employerMatchPercent, account.employerMatchLimit⟩

/-- Source function `calculateEmployerMatch`: zero unless the category supports a match
(401(k) variants or employer RRSP) and both match fields are present and
non-zero; otherwise the lesser of `contribution * matchPercent` and the
match limit. -/
def calculateEmployerMatch (account : Account) : ℚ :=
  let supportsMatch := is401k account.type || account.type == AccountType.employer_rrsp
  if !supportsMatch || isFalsyNum account.employerMatchPercent
      || isFalsyNum account.employerMatchLimit then 0
  else
    min (account.annualContribution * (account.employerMatchPercent.getD 0))
      (account.employerMatchLimit.getD 0)

/-- One simulated accumulation year for one account, acting on its
`(balance, contribution)` state: apply the return, add contribution plus
employer match, then grow the contribution for the following year. -/
def accumYearStep (account : Account) (state : ℚ × ℚ) : ℚ × ℚ :=
  let balanceAfterReturn := state.1 * (1 + account.returnRate)
  let employerMatch := calculateEmployerMatch (withContribution account state.2)
  (balanceAfterReturn + (state.2 + employerMatch),
   state.2 * (1 + account.contributionGrowthRate))

/-- The `(balance, contribution)` state of one account after `n` simulated
accumulation years. -/
def accumStateAfter (account : Account) : ℕ → ℚ × ℚ
  | 0 => (account.balance, account.annualContribution)
  | n + 1 => accumYearStep account (accumStateAfter account n)

/-- One recorded accumulation year (`YearlyAccountBalance`): per-account
balances and contributions in account-list order, plus the total.  The
source keys these records by account id; with distinct ids that map is
exactly a list aligned with the account list. -/
structure YearlyAccountBalance where
  age : ℕ
  balances : List ℚ
  totalBalance : ℚ
  contributions : List ℚ
deriving DecidableEq

/-- Source type `AccumulationResult` (without the presentation-only groupings). -/
structure AccumulationResult where
  yearlyBalances : List YearlyAccountBalance
  finalBalances : List ℚ
  totalAtRetirement : ℚ
deriving DecidableEq

/-- The recorded state of all accounts after `n` simulated years. -/
def accumYearRecord (accounts : List Account) (currentAge n : ℕ) : YearlyAccountBalance :=
  let states := accounts.map (fun account => accumStateAfter account n)
  ⟨currentAge + n, states.map Prod.fst, (states.map Prod.fst).sum, states.map Prod.snd⟩

/-- Source function `calculateAccumulation`: year 0 records the unmodified starting state,
then each year up to `retirementAge - currentAge` applies
`accumYearStep` to every account independently. -/
def calculateAccumulation (accounts : List Account) (profile : Profile) :
    AccumulationResult :=
  let yearsToRetirement := profile.retirementAge - profile.currentAge
  let yearly := (List.range (yearsToRetirement + 1)).map
    (fun n => accumYearRecord accounts profile.currentAge n)
  let finalStates := accounts.map (fun account => accumStateAfter account yearsToRetirement)
  ⟨yearly, finalStates.map Prod.fst, (finalStates.map Prod.fst).sum⟩

/-! ## Withdrawal simulator

The repository's `src/utils/withdrawals.ts` is not part of the snapshot:
only its tests, its callers and the implementation-plan document survive.
The simulator below is therefore modelled from the specification's §4.4
per-year algorithm and the plan document's withdrawal-step code. -/

/-- One account as seen by the withdrawal simulator: its tax-treatment
category and its running balance. -/
structure SimAccount where
  treatment : TaxTreatment
  balance : ℚ
deriving DecidableEq

/-- Modelled from the spec: the mandatory distribution for one simulator
account — pretax accounts use the US RMD rule (`calculateRMD`), every
other category owes nothing. -/
def simMandatory (age : ℕ) (account : SimAccount) : ℚ :=
  if account.treatment = TaxTreatment.pretax
  then calculateRMD age account.balance AccountType.traditional_ira
  else 0

/-- Modelled from the spec (and the plan document's
`withdrawal = Math.min(remaining, acc.balance)` loops): withdraw up to
`need` from the accounts matching `pred`, in declaration order, never
taking more than an account's balance.  Returns the updated accounts and
the total actually withdrawn. -/
def drawFrom (pred : TaxTreatment → Bool) :
    List SimAccount → ℚ → List SimAccount × ℚ
  | [], _ => ([], 0)
  | account :: rest, need =>
    if pred account.treatment then
      let w := min need account.balance
      let result := drawFrom pred rest (need - w)
      (⟨account.treatment, account.balance - w⟩ :: result.1, w + result.2)
    else
      let result := drawFrom pred rest need
      (account :: result.1, result.2)

/-- One simulated withdrawal year, recorded (`YearlyWithdrawal`, reduced
to the fields the invariants concern). -/
structure SimYearRecord where
  age : ℕ
  totalWithdrawal : ℚ
  rmdAmount : ℚ
  remainingBalances : List ℚ
  totalRemainingBalance : ℚ
deriving DecidableEq

/-- Modelled from the spec: one year of the withdrawal state machine.
`fillCeiling` is the configured amount of extra pretax withdrawal allowed
before switching to tax-free sources (step 5a); `benefit` is this year's
benefit income; `targetSpending` this year's inflated spending target.
Mandatory distributions are withdrawn first regardless of the target, the
remaining need is then satisfied from pretax (up to the ceiling), Roth,
taxable and HSA accounts, and finally from pretax again; every balance is
then grown by the retirement-phase return rate. -/
def simYear (retirementReturnRate fillCeiling targetSpending benefit : ℚ)
    (age : ℕ) (accounts : List SimAccount) : SimYearRecord × List SimAccount :=
  let rmdAmount := (accounts.map (simMandatory age)).sum
  let step1 := drawFrom (fun t => t == TaxTreatment.pretax) accounts rmdAmount
  let remainingNeed := max 0 (targetSpending - benefit - rmdAmount)
  let step2 := drawFrom (fun t => t == TaxTreatment.pretax) step1.1
    (min remainingNeed (max 0 fillCeiling))
  let need2 := remainingNeed - step2.2
  let step3 := drawFrom (fun t => t == TaxTreatment.roth) step2.1 need2
  let need3 := need2 - step3.2
  let step4 := drawFrom (fun t => t == TaxTreatment.taxable) step3.1 need3
  let need4 := need3 - step4.2
  let step5 := drawFrom (fun t => t == TaxTreatment.hsa) step4.1 need4
  let need5 := need4 - step5.2
  let step6 := drawFrom (fun t => t == TaxTreatment.pretax) step5.1 need5
  let totalWithdrawal := step1.2 + step2.2 + step3.2 + step4.2 + step5.2 + step6.2
  let grown := step6.1.map
    (fun account => ⟨account.treatment, account.balance * (1 + retirementReturnRate)⟩)
  (⟨age, totalWithdrawal, rmdAmount, grown.map SimAccount.balance,
    (grown.map SimAccount.balance).sum⟩, grown)

/-- Modelled from the spec: run the state machine over a list of ages,
threading balances and collecting one record per year. -/
def simRun (retirementReturnRate fillCeiling initialTarget inflationRate benefit : ℚ)
    (retirementAge : ℕ) :
    List ℕ → List SimAccount → List SimYearRecord
  | [], _ => []
  | age :: ages, accounts =>
    let targetSpending := initialTarget * (1 + inflationRate) ^ (age - retirementAge)
    let year := simYear retirementReturnRate fillCeiling targetSpending benefit age accounts
    year.1 :: simRun retirementReturnRate fillCeiling initialTarget inflationRate
      benefit retirementAge ages year.2

/-- Modelled from the spec: the withdrawal simulator proper — one year for
each age from retirement age to life expectancy inclusive, the year-1
target being the safe-withdrawal-rate fraction of the starting portfolio. -/
def simulateWithdrawals (accounts : List SimAccount)
    (retirementAge lifeExpectancy : ℕ)
    (safeWithdrawalRate inflationRate retirementReturnRate fillCeiling benefit : ℚ) :
    List SimYearRecord :=
  let initialTarget := safeWithdrawalRate * (accounts.map SimAccount.balance).sum
  simRun retirementReturnRate fillCeiling initialTarget inflationRate benefit
    retirementAge
    (List.range' retirementAge (lifeExpectancy + 1 - retirementAge)) accounts

/-! ## Helper lemmas -/

/-- Every Uniform Lifetime Table entry is for an age of at most 120. -/
lemma rmd_table_age_le : ∀ entry ∈ RMD_TABLE, entry.age ≤ 120 := by decide

/-- Every RRIF minimum table entry is for an age of at most 95. -/
lemma rrif_table_age_le : ∀ entry ∈ RRIF_MINIMUM_TABLE, entry.age ≤ 95 := by decide

/-- Past age 120 the Uniform Lifetime Table has no entry. -/
lemma rmd_table_find_none (age : ℕ) (h : 120 < age) :
    RMD_TABLE.find? (fun e => e.age == age) = none := by
  refine List.find?_eq_none.mpr ?_
  intro entry hmem
  have := rmd_table_age_le entry hmem
  simp only [beq_iff_eq]
  omega

/-- Past age 95 the RRIF minimum table has no entry. -/
lemma rrif_table_find_none (age : ℕ) (h : 95 < age) :
    RRIF_MINIMUM_TABLE.find? (fun e => e.age == age) = none := by
  refine List.find?_eq_none.mpr ?_
  intro entry hmem
  have := rrif_table_age_le entry hmem
  simp only [beq_iff_eq]
  omega

/-- C1: `calculateFederalIncomeTax` returns 0 on non-positive income, and on
positive income walks the filing status' bracket table in ascending order
(`fedTaxLoop`), taxing `min(remaining, max - min)` in each bracket until the
income is exhausted; on the 2024 married-filing-jointly table it yields
exactly 5536 at 50000 of taxable income. -/
theorem federal_income_tax_contract :
    (∀ (fs : FilingStatus) (x : ℚ), x ≤ 0 → calculateFederalIncomeTax x fs = 0)
    ∧ (∀ (fs : FilingStatus) (x : ℚ), 0 < x →
        calculateFederalIncomeTax x fs = fedTaxLoop (getTaxBrackets fs) x)
    ∧ calculateFederalIncomeTax 50000 FilingStatus.married_filing_jointly = 5536 := by
  refine ⟨fun fs x hx => if_pos hx, fun fs x hx => if_neg (not_le.mpr hx), ?_⟩
  norm_num [calculateFederalIncomeTax, getTaxBrackets, TAX_BRACKETS_MFJ, fedTaxLoop,
    min_def]

/-- Witness for C1 at concrete inputs. -/
theorem federal_income_tax_contract_witness :
    ((-5 : ℚ) ≤ 0 ∧ calculateFederalIncomeTax (-5) FilingStatus.single = 0)
    ∧ (0 < (50000 : ℚ)
        ∧ calculateFederalIncomeTax 50000 FilingStatus.married_filing_jointly =
            fedTaxLoop (getTaxBrackets FilingStatus.married_filing_jointly) 50000) :=
  ⟨⟨by norm_num, federal_income_tax_contract.1 FilingStatus.single (-5) (by norm_num)⟩,
   ⟨by norm_num,
    federal_income_tax_contract.2.1 FilingStatus.married_filing_jointly 50000 (by norm_num)⟩⟩

/-- C3: the total federal tax splits as income tax on ordinary income net
of the standard deduction plus capital-gains tax positioned by the gross
(pre-deduction) ordinary income. -/
theorem total_federal_tax_decomposition :
    ∀ (ordinaryIncome capitalGains : ℚ) (fs : FilingStatus),
      calculateTotalFederalTax ordinaryIncome capitalGains fs =
        calculateFederalIncomeTax
            (max 0 (ordinaryIncome - getStandardDeduction fs)) fs
          + calculateCapitalGainsTax capitalGains ordinaryIncome fs :=
  fun _ _ _ => rfl

/-- C4: `calculateRMD` is 0 below the start age (73), 0 for any non-pretax
category, 0 for non-positive balances, and otherwise the balance divided by
the age's divisor; a 1,000,000 balance at 73 (divisor 26.5) gives
approximately 37735.85. -/
theorem rmd_contract :
    (∀ (age : ℕ) (balance : ℚ) (t : AccountType), age < RMD_START_AGE →
        calculateRMD age balance t = 0)
    ∧ (∀ (age : ℕ) (balance : ℚ) (t : AccountType), isTraditional t = false →
        calculateRMD age balance t = 0)
    ∧ (∀ (age : ℕ) (balance : ℚ) (t : AccountType), balance ≤ 0 →
        calculateRMD age balance t = 0)
    ∧ (∀ (age : ℕ) (balance : ℚ) (t : AccountType),
        RMD_START_AGE ≤ age → 0 < balance → isTraditional t = true →
        calculateRMD age balance t = balance / getRMDDivisor age)
    ∧ abs (calculateRMD 73 1000000 AccountType.traditional_401k - 37735.85) < 0.01 := by
  refine ⟨?_, ?_, ?_, ?_, ?_⟩
  · intro age balance t h
    unfold calculateRMD
    cases ht : isTraditional t <;> simp [ht, h]
  · intro age balance t h
    unfold calculateRMD
    rw [h]
    rfl
  · intro age balance t h
    unfold calculateRMD
    cases ht : isTraditional t <;> simp [ht, h]
  · intro age balance t hage hbal ht
    unfold calculateRMD
    rw [ht]
    rw [if_neg (by omega : ¬age < RMD_START_AGE), if_neg (not_le.mpr hbal)]
    simp only [Bool.not_true, Bool.false_eq_true, if_false]
    split
    · rename_i hz
      rw [hz, div_zero]
    · rfl
  · have hfind : RMD_TABLE.find? (fun e => e.age == 73) = some ⟨73, 26.5⟩ := rfl
    have hdiv : getRMDDivisor 73 = 26.5 := by
      unfold getRMDDivisor
      rw [hfind]
      rfl
    have : calculateRMD 73 1000000 AccountType.traditional_401k = 1000000 / 26.5 := by
      unfold calculateRMD
      rw [hdiv]
      norm_num [isTraditional, RMD_START_AGE]
    rw [this, abs_lt]
    constructor <;> norm_num

/-- Witness for C4 at concrete inputs. -/
theorem rmd_contract_witness :
    (calculateRMD 60 500000 AccountType.traditional_ira = 0)
    ∧ (calculateRMD 80 500000 AccountType.roth_ira = 0)
    ∧ (calculateRMD 80 (-3) AccountType.traditional_ira = 0)
    ∧ (calculateRMD 80 500000 AccountType.traditional_ira = 500000 / getRMDDivisor 80) :=
  ⟨rmd_contract.1 60 500000 AccountType.traditional_ira (by decide),
   rmd_contract.2.1 80 500000 AccountType.roth_ira rfl,
   rmd_contract.2.2.1 80 (-3) AccountType.traditional_ira (by norm_num),
   rmd_contract.2.2.2.1 80 500000 AccountType.traditional_ira (by decide) (by norm_num) rfl⟩

/-- C5: at or above the start age the divisor/percentage lookup returns the
tabulated value for an exact-age hit; past the last tabulated age (120 US,
95 Canada) it flatlines at the last tabulated value (divisor 2.0, 20%). -/
theorem mandatory_divisor_lookup_contract :
    (∀ (age : ℕ) (entry : RMDEntry), RMD_START_AGE ≤ age →
        RMD_TABLE.find? (fun e => e.age == age) = some entry →
        getRMDDivisor age = entry.divisor)
    ∧ (∀ entry ∈ RMD_TABLE, entry.age ≤ 120)
    ∧ (∀ age : ℕ, 120 < age → getRMDDivisor age = 2.0)
    ∧ (RMD_TABLE.map RMDEntry.divisor).getLast? = some 2.0
    ∧ (∀ (age : ℕ) (entry : RRIFEntry), RRIF_START_AGE ≤ age →
        RRIF_MINIMUM_TABLE.find? (fun e => e.age == age) = some entry →
        getRRIFMinimumPercentage age = entry.minimumPercentage)
    ∧ (∀ entry ∈ RRIF_MINIMUM_TABLE, entry.age ≤ 95)
    ∧ (∀ age : ℕ, 95 < age → getRRIFMinimumPercentage age = 0.20)
    ∧ (RRIF_MINIMUM_TABLE.map RRIFEntry.minimumPercentage).getLast? = some 0.20 := by
  refine ⟨?_, rmd_table_age_le, ?_, rfl, ?_, rrif_table_age_le, ?_, rfl⟩
  · intro age entry hage hfind
    unfold getRMDDivisor
    rw [if_neg (by omega : ¬age < RMD_START_AGE), hfind]
  · intro age h
    unfold getRMDDivisor
    rw [if_neg (by unfold RMD_START_AGE; omega : ¬age < RMD_START_AGE),
      rmd_table_find_none age h, if_pos h]
  · intro age entry hage hfind
    unfold getRRIFMinimumPercentage
    rw [if_neg (by omega : ¬age < RRIF_START_AGE), hfind]
  · intro age h
    unfold getRRIFMinimumPercentage
    rw [if_neg (by unfold RRIF_START_AGE; omega : ¬age < RRIF_START_AGE),
      rrif_table_find_none age h, if_pos (by omega : 95 ≤ age)]

/-- Witness for C5 at concrete inputs. -/
theorem mandatory_divisor_lookup_contract_witness :
    (getRMDDivisor 75 = (24.6 : ℚ)) ∧ (getRMDDivisor 130 = (2.0 : ℚ))
    ∧ (getRRIFMinimumPercentage 80 = (0.0682 : ℚ))
    ∧ (getRRIFMinimumPercentage 100 = (0.20 : ℚ)) :=
  ⟨mandatory_divisor_lookup_contract.1 75 ⟨75, 24.6⟩ (by decide) rfl,
   mandatory_divisor_lookup_contract.2.2.1 130 (by omega),
   mandatory_divisor_lookup_contract.2.2.2.2.1 80 ⟨80, 0.0682⟩ (by decide) rfl,
   mandatory_divisor_lookup_contract.2.2.2.2.2.2.1 100 (by omega)⟩

/-- C9: the OAS clawback is 0 at or below the threshold (86912), the full
OAS amount at or above the elimination threshold (142609), and otherwise
`min(0.15 * (netIncome - threshold), oasAmount)`; it always lies between 0
and the OAS amount. -/
theorem oas_clawback_contract :
    ∀ netIncome oasAmount : ℚ, 0 ≤ oasAmount →
      (netIncome ≤ 86912 → calculateOASClawback netIncome oasAmount = 0)
      ∧ (142609 ≤ netIncome → calculateOASClawback netIncome oasAmount = oasAmount)
      ∧ (86912 < netIncome → netIncome < 142609 →
          calculateOASClawback netIncome oasAmount =
            min (0.15 * (netIncome - 86912)) oasAmount)
      ∧ 0 ≤ calculateOASClawback netIncome oasAmount
      ∧ calculateOASClawback netIncome oasAmount ≤ oasAmount := by
  intro netIncome oasAmount hoas
  unfold calculateOASClawback OAS_CLAWBACK_THRESHOLD OAS_CLAWBACK_RATE
    OAS_CLAWBACK_ELIMINATION
  refine ⟨fun h => if_pos h, ?_, ?_, ?_, ?_⟩
  · intro h
    rw [if_neg (by linarith), if_pos h]
  · intro h1 h2
    rw [if_neg (by linarith), if_neg (by linarith), mul_comm]
  · split_ifs with h1 h2
    · exact le_refl 0
    · exact hoas
    · exact le_min (by nlinarith) hoas
  · split_ifs with h1 h2
    · exact hoas
    · exact le_refl oasAmount
    · exact min_le_right _ _

/-- Witness for C9 at concrete inputs. -/
theorem oas_clawback_contract_witness :
    (0 : ℚ) ≤ 8000
    ∧ calculateOASClawback 50000 8000 = 0
    ∧ calculateOASClawback 200000 8000 = 8000
    ∧ calculateOASClawback 100000 8000 = min (0.15 * (100000 - 86912)) 8000 :=
  ⟨by norm_num,
   (oas_clawback_contract 50000 8000 (by norm_num)).1 (by norm_num),
   (oas_clawback_contract 200000 8000 (by norm_num)).2.1 (by norm_num),
   (oas_clawback_contract 100000 8000 (by norm_num)).2.2.1 (by norm_num) (by norm_num)⟩

/-- C10: the employer match is 0 for categories that support no match, 0
when either match field is absent or zero, and otherwise
`min(annualContribution * matchPercent, matchLimit)`. -/
theorem employer_match_contract :
    (∀ account : Account,
        is401k account.type = false → account.type ≠ AccountType.employer_rrsp →
        calculateEmployerMatch account = 0)
    ∧ (∀ account : Account, isFalsyNum account.employerMatchPercent = true →
        calculateEmployerMatch account = 0)
    ∧ (∀ account : Account, isFalsyNum account.employerMatchLimit = true →
        calculateEmployerMatch account = 0)
    ∧ (∀ (account : Account) (p l : ℚ),
        account.employerMatchPercent = some p → account.employerMatchLimit = some l →
        p ≠ 0 → l ≠ 0 →
        (is401k account.type = true ∨ account.type = AccountType.employer_rrsp) →
        calculateEmployerMatch account =
          min (account.annualContribution * p) l) := by
  refine ⟨?_, ?_, ?_, ?_⟩
  · intro account h1 h2
    unfold calculateEmployerMatch
    simp [h1, h2]
  · intro account h
    unfold calculateEmployerMatch
    simp [h]
  · intro account h
    unfold calculateEmployerMatch
    simp [h]
  · intro account p l hp hl hpz hlz hsupp
    unfold calculateEmployerMatch
    have hsupp' : (is401k account.type || account.type == AccountType.employer_rrsp) = true := by
      rcases hsupp with h | h
      · simp [h]
      · simp [h]
    rw [hsupp', hp, hl]
    simp [isFalsyNum, hpz, hlz]

/-- Witness for C10 at concrete inputs. -/
theorem employer_match_contract_witness :
    (calculateEmployerMatch ⟨0, AccountType.taxable, 1000, 100, 0, 0, some 0.5, some 30⟩ = 0)
    ∧ (calculateEmployerMatch ⟨0, AccountType.traditional_401k, 1000, 100, 0, 0, none, some 30⟩ = 0)
    ∧ (calculateEmployerMatch ⟨0, AccountType.traditional_401k, 1000, 100, 0, 0, some 0.5, some 0⟩ = 0)
    ∧ (calculateEmployerMatch ⟨0, AccountType.traditional_401k, 1000, 100, 0, 0, some 0.5, some 30⟩ =
        min ((100 : ℚ) * 0.5) 30) :=
  ⟨employer_match_contract.1 ⟨0, AccountType.taxable, 1000, 100, 0, 0, some 0.5, some 30⟩
      rfl (by simp),
   employer_match_contract.2.1 ⟨0, AccountType.traditional_401k, 1000, 100, 0, 0, none, some 30⟩
      rfl,
   employer_match_contract.2.2.1
      ⟨0, AccountType.traditional_401k, 1000, 100, 0, 0, some 0.5, some 0⟩ (by norm_num [isFalsyNum]),
   employer_match_contract.2.2.2
      ⟨0, AccountType.traditional_401k, 1000, 100, 0, 0, some 0.5, some 30⟩ 0.5 30
      rfl rfl (by norm_num) (by norm_num) (Or.inl rfl)⟩

/-- C8: `getWithdrawalToFillBracket` returns 0 when no bracket's rate
matches the target exactly; returns 0 when current taxable income (gross
minus standard deduction, floored at 0) already reaches the target
bracket's max; otherwise returns the unused width between
`max(currentTaxable, bracket.min)` and `bracket.max` plus the unused
standard-deduction headroom when gross income is still below the
deduction.  (For the unbounded final bracket the room is infinite,
i.e. `none`.) -/
theorem withdrawal_to_fill_bracket_contract :
    (∀ (fs : FilingStatus) (cur t : ℚ),
        (getTaxBrackets fs).find? (fun b => b.rate == t) = none →
        getWithdrawalToFillBracket cur t fs = some 0)
    ∧ (∀ (fs : FilingStatus) (cur t : ℚ) (b : TaxBracket) (m : ℚ),
        (getTaxBrackets fs).find? (fun b => b.rate == t) = some b →
        b.max = some m → m ≤ max 0 (cur - getStandardDeduction fs) →
        getWithdrawalToFillBracket cur t fs = some 0)
    ∧ (∀ (fs : FilingStatus) (cur t : ℚ) (b : TaxBracket) (m : ℚ),
        (getTaxBrackets fs).find? (fun b => b.rate == t) = some b →
        b.max = some m → max 0 (cur - getStandardDeduction fs) < m →
        getWithdrawalToFillBracket cur t fs =
          some (m - max (max 0 (cur - getStandardDeduction fs)) b.min +
            (if cur < getStandardDeduction fs then getStandardDeduction fs - cur else 0)))
    ∧ (∀ (fs : FilingStatus) (cur t : ℚ) (b : TaxBracket),
        (getTaxBrackets fs).find? (fun b => b.rate == t) = some b →
        b.max = none →
        getWithdrawalToFillBracket cur t fs = none) := by
  refine ⟨?_, ?_, ?_, ?_⟩
  · intro fs cur t hfind
    unfold getWithdrawalToFillBracket
    rw [hfind]
  · intro fs cur t b m hfind hmax hle
    unfold getWithdrawalToFillBracket
    rw [hfind]
    simp only [hmax]
    rw [if_pos hle]
  · intro fs cur t b m hfind hmax hlt
    unfold getWithdrawalToFillBracket
    rw [hfind]
    simp only [hmax]
    rw [if_neg (not_le.mpr hlt)]
  · intro fs cur t b hfind hmax
    unfold getWithdrawalToFillBracket
    rw [hfind]
    simp only [hmax]

/-- Witness for C8 at concrete inputs. -/
theorem withdrawal_to_fill_bracket_contract_witness :
    (getWithdrawalToFillBracket 0 0.11 FilingStatus.married_filing_jointly = some 0)
    ∧ (getWithdrawalToFillBracket 300000 0.10 FilingStatus.married_filing_jointly = some 0)
    ∧ (getWithdrawalToFillBracket 0 0.10 FilingStatus.married_filing_jointly =
        some ((23200 : ℚ) - max (max 0 (0 - getStandardDeduction FilingStatus.married_filing_jointly)) 0 +
          (if (0 : ℚ) < getStandardDeduction FilingStatus.married_filing_jointly
           then getStandardDeduction FilingStatus.married_filing_jointly - 0 else 0)))
    ∧ (getWithdrawalToFillBracket 0 0.37 FilingStatus.married_filing_jointly = none) := by
  refine ⟨?_, ?_, ?_, ?_⟩
  · refine withdrawal_to_fill_bracket_contract.1 FilingStatus.married_filing_jointly 0 0.11 ?_
    have e1 : ((0.10 : ℚ) == (0.11 : ℚ)) = false := by norm_num
    have e2 : ((0.12 : ℚ) == (0.11 : ℚ)) = false := by norm_num
    have e3 : ((0.22 : ℚ) == (0.11 : ℚ)) = false := by norm_num
    have e4 : ((0.24 : ℚ) == (0.11 : ℚ)) = false := by norm_num
    have e5 : ((0.32 : ℚ) == (0.11 : ℚ)) = false := by norm_num
    have e6 : ((0.35 : ℚ) == (0.11 : ℚ)) = false := by norm_num
    have e7 : ((0.37 : ℚ) == (0.11 : ℚ)) = false := by norm_num
    simp only [getTaxBrackets, TAX_BRACKETS_MFJ, List.find?, e1, e2, e3, e4, e5, e6, e7]
  · exact withdrawal_to_fill_bracket_contract.2.1 FilingStatus.married_filing_jointly 300000 0.10
      ⟨0, some 23200, 0.10⟩ 23200
      (by norm_num [getTaxBrackets, TAX_BRACKETS_MFJ, List.find?])
      rfl (by norm_num [getStandardDeduction, STANDARD_DEDUCTION_MFJ])
  · exact withdrawal_to_fill_bracket_contract.2.2.1 FilingStatus.married_filing_jointly 0 0.10
      ⟨0, some 23200, 0.10⟩ 23200
      (by norm_num [getTaxBrackets, TAX_BRACKETS_MFJ, List.find?])
      rfl (by norm_num [getStandardDeduction, STANDARD_DEDUCTION_MFJ])
  · refine withdrawal_to_fill_bracket_contract.2.2.2 FilingStatus.married_filing_jointly 0 0.37
      ⟨731200, none, 0.37⟩ ?_ rfl
    have e1 : ((0.10 : ℚ) == (0.37 : ℚ)) = false := by norm_num
    have e2 : ((0.12 : ℚ) == (0.37 : ℚ)) = false := by norm_num
    have e3 : ((0.22 : ℚ) == (0.37 : ℚ)) = false := by norm_num
    have e4 : ((0.24 : ℚ) == (0.37 : ℚ)) = false := by norm_num
    have e5 : ((0.32 : ℚ) == (0.37 : ℚ)) = false := by norm_num
    have e6 : ((0.35 : ℚ) == (0.37 : ℚ)) = false := by norm_num
    simp only [getTaxBrackets, TAX_BRACKETS_MFJ, List.find?, e1, e2, e3, e4, e5, e6,
      beq_self_eq_true]

/-- With a zero contribution (and a non-negative match limit) the employer
match contributes nothing. -/
lemma employer_match_zero_contribution (account : Account)
    (hL : 0 ≤ account.employerMatchLimit.getD 0) :
    calculateEmployerMatch (withContribution account 0) = 0 := by
  unfold calculateEmployerMatch withContribution
  dsimp only
  split
  · rfl
  · rename_i hcond
    rcases hl : account.employerMatchLimit with _ | l
    · rw [hl] at hcond
      simp [isFalsyNum] at hcond
    · have hlz : l ≠ 0 := by
        intro h
        apply hcond
        rw [hl, h]
        simp [isFalsyNum]
      have hl0 : 0 ≤ l := by
        rw [hl] at hL
        simpa using hL
      simp only [Option.getD_some, zero_mul]
      exact min_eq_left hl0

/-- With a zero contribution the accumulation state of one account is pure
compound growth. -/
lemma accumStateAfter_zero_contribution (account : Account)
    (hc : account.annualContribution = 0)
    (hL : 0 ≤ account.employerMatchLimit.getD 0) :
    ∀ n : ℕ, accumStateAfter account n =
      (account.balance * (1 + account.returnRate) ^ n, 0) := by
  intro n
  induction n with
  | zero => simp [accumStateAfter, hc]
  | succ n ih =>
    rw [accumStateAfter, ih]
    unfold accumYearStep
    simp only [employer_match_zero_contribution account hL]
    rw [Prod.mk.injEq]
    exact ⟨by ring, by ring⟩

/-- C6: for a single account with zero annual contribution,
`calculateAccumulation` compounds the starting balance at the account's
return rate over `retirementAge - currentAge` years; with a zero return
the balance is unchanged.  (The non-negativity of the optional employer
match cap reflects the data model: it is a dollar amount.) -/
theorem accumulation_zero_contribution_growth :
    ∀ (account : Account) (profile : Profile),
      account.annualContribution = 0 →
      0 ≤ account.employerMatchLimit.getD 0 →
      (calculateAccumulation [account] profile).totalAtRetirement =
        account.balance *
          (1 + account.returnRate) ^ (profile.retirementAge - profile.currentAge)
      ∧ (account.returnRate = 0 →
          (calculateAccumulation [account] profile).totalAtRetirement =
            account.balance) := by
  intro account profile hc hL
  have key : (calculateAccumulation [account] profile).totalAtRetirement =
      account.balance *
        (1 + account.returnRate) ^ (profile.retirementAge - profile.currentAge) := by
    unfold calculateAccumulation
    simp [accumStateAfter_zero_contribution account hc hL]
  exact ⟨key, fun hr => by rw [key, hr]; ring⟩

/-- Witness for C6 at a concrete account and profile. -/
theorem accumulation_zero_contribution_growth_witness :
    (calculateAccumulation
        [⟨0, AccountType.taxable, 100000, 0, 0, 0.07, none, none⟩]
        ⟨30, 40, 90, FilingStatus.single, 0⟩).totalAtRetirement =
      100000 * (1 + 0.07) ^ 10 :=
  (accumulation_zero_contribution_growth
    ⟨0, AccountType.taxable, 100000, 0, 0, 0.07, none, none⟩
    ⟨30, 40, 90, FilingStatus.single, 0⟩ rfl (by norm_num)).1

/-- The cumulative income position after `cgLoop` processes bracket `b`
starting at income `cur` with gains reaching up to total position `T`:
the position is capped by the bracket's max (never below `cur`) and by
`T` itself. -/
def bracketCeil (b : TaxBracket) (cur T : ℚ) : ℚ :=
  match b.max with
  | none => T
  | some m => min T (max cur m)

/-- Evaluating `bracketCeil` at a lower total is the lower total capped by the
ceiling at a higher total. -/
lemma bracketCeil_min (b : TaxBracket) (cur T1 T2 : ℚ) (h : T1 ≤ T2) :
    bracketCeil b cur T1 = min T1 (bracketCeil b cur T2) := by
  unfold bracketCeil
  cases hmax : b.max with
  | none => exact (min_eq_left h).symm
  | some m => rw [← min_assoc, min_eq_left h]

/-- One step of `cgLoop` in closed form: for positive remaining gains the
bracket contributes its rate times the part of `(cur, cur + rem]` that
lies inside the bracket, and the loop continues from the bracket ceiling. -/
lemma cgLoop_cons_closed (b : TaxBracket) (bs : List TaxBracket) (cur rem : ℚ)
    (hrem : ¬rem ≤ 0) :
    cgLoop (b :: bs) cur rem =
      b.rate * max 0 (bracketCeil b cur (cur + rem) - max b.min cur)
        + cgLoop bs (bracketCeil b cur (cur + rem))
            (cur + rem - bracketCeil b cur (cur + rem)) := by
  have h0 : 0 < rem := not_le.mp hrem
  rw [cgLoop, if_neg hrem]
  cases hmax : b.max with
  | none =>
    have hceil : bracketCeil b cur (cur + rem) = cur + rem := by
      unfold bracketCeil
      rw [hmax]
    rw [hceil]
    simp only [hmax]
    have htail : rem - rem = cur + rem - (cur + rem) := by ring
    rw [htail]
    congr 1
    split_ifs with hc
    · have hX : min rem (cur + rem - max b.min cur) =
          max 0 (cur + rem - max b.min cur) := by
        rcases max_cases b.min cur with ⟨hm, hcle⟩ | ⟨hm, hlt⟩
        · rw [hm]
          have hXpos : 0 < cur + rem - b.min := by linarith [hc.2]
          rw [max_eq_right hXpos.le, min_eq_right (by linarith)]
        · rw [hm]
          have he : cur + rem - cur = rem := by ring
          rw [he, min_self, max_eq_right h0.le]
      rw [hX]
      ring
    · push_neg at hc
      have hle : cur + rem ≤ b.min := hc h0
      have hXle : cur + rem - max b.min cur ≤ 0 := by
        have := le_max_left b.min cur
        linarith
      rw [max_eq_left hXle, mul_zero]
  | some m =>
    simp only [hmax]
    have hgnn : 0 ≤ min rem (max 0 (m - cur)) := le_min h0.le (le_max_left 0 _)
    have hceil : bracketCeil b cur (cur + rem) = cur + min rem (max 0 (m - cur)) := by
      have h1 : cur + max 0 (m - cur) = max cur m := by
        rcases max_cases 0 (m - cur) with ⟨hm, hle⟩ | ⟨hm, hlt⟩
        · rw [hm, max_eq_left (by linarith)]
          ring
        · rw [hm, max_eq_right (by linarith)]
          ring
      unfold bracketCeil
      rw [hmax]
      show min (cur + rem) (max cur m) = cur + min rem (max 0 (m - cur))
      rw [← h1, min_add_add_left]
    rw [hceil]
    have htail : cur + rem - (cur + min rem (max 0 (m - cur))) =
        rem - min rem (max 0 (m - cur)) := by ring
    rw [htail]
    congr 1
    split_ifs with hc
    · have hX : min (min rem (max 0 (m - cur)))
          (cur + min rem (max 0 (m - cur)) - max b.min cur) =
          max 0 (cur + min rem (max 0 (m - cur)) - max b.min cur) := by
        rcases max_cases b.min cur with ⟨hm, hcle⟩ | ⟨hm, hlt⟩
        · rw [hm]
          have hXpos : 0 < cur + min rem (max 0 (m - cur)) - b.min := by
            linarith [hc.2]
          rw [max_eq_right hXpos.le, min_eq_right (by linarith)]
        · rw [hm]
          have he : cur + min rem (max 0 (m - cur)) - cur =
              min rem (max 0 (m - cur)) := by ring
          rw [he, min_self, max_eq_right hgnn]
      rw [hX]
      ring
    · push_neg at hc
      by_cases hgz : 0 < min rem (max 0 (m - cur))
      · have hle : cur + min rem (max 0 (m - cur)) ≤ b.min := hc hgz
        have hXle : cur + min rem (max 0 (m - cur)) - max b.min cur ≤ 0 := by
          have := le_max_left b.min cur
          linarith
        rw [max_eq_left hXle, mul_zero]
      · have hg0 : min rem (max 0 (m - cur)) = 0 :=
          le_antisymm (not_lt.mp hgz) hgnn
        rw [hg0]
        have hXle : cur + 0 - max b.min cur ≤ 0 := by
          have := le_max_right b.min cur
          linarith
        rw [max_eq_left hXle, mul_zero]

/-- With non-negative rates the capital-gains loop never produces a
negative tax. -/
lemma cgLoop_nonneg : ∀ (bs : List TaxBracket), (∀ b ∈ bs, 0 ≤ b.rate) →
    ∀ cur rem : ℚ, 0 ≤ cgLoop bs cur rem := by
  intro bs
  induction bs with
  | nil =>
    intro _ cur rem
    rw [cgLoop]
  | cons b bs ih =>
    intro hr cur rem
    by_cases h : rem ≤ 0
    · rw [cgLoop, if_pos h]
    · rw [cgLoop_cons_closed b bs cur rem h]
      refine add_nonneg (mul_nonneg (hr b (List.mem_cons_self b bs)) (le_max_left 0 _)) ?_
      exact ih (fun x hx => hr x (List.mem_cons_of_mem b hx)) _ _

/-- Monotonicity of the capital-gains loop: with non-negative rates,
covering a taller span of income `(curA, curA + remA] ⊆ (curB, curB + remB]`
(expressed by the two hypotheses) can only increase the tax. -/
lemma cgLoop_mono : ∀ (bs : List TaxBracket), (∀ b ∈ bs, 0 ≤ b.rate) →
    ∀ curA remA curB remB : ℚ, curA + remA ≤ curB + remB →
      curA = min (curA + remA) curB →
      cgLoop bs curA remA ≤ cgLoop bs curB remB := by
  intro bs
  induction bs with
  | nil =>
    intro _ curA remA curB remB _ _
    rw [cgLoop, cgLoop]
  | cons b bs ih =>
    intro hr curA remA curB remB hT hA
    by_cases hA0 : remA ≤ 0
    · rw [cgLoop, if_pos hA0]
      exact cgLoop_nonneg (b :: bs) hr curB remB
    · have hApos : 0 < remA := not_le.mp hA0
      have hcur : curB = curA := by
        rcases le_total curB (curA + remA) with h | h
        · rw [min_eq_right h] at hA
          exact hA.symm
        · rw [min_eq_left h] at hA
          linarith
      subst hcur
      have hB0 : ¬remB ≤ 0 := by
        intro h
        linarith
      rw [cgLoop_cons_closed b bs curB remA hA0, cgLoop_cons_closed b bs curB remB hB0]
      have hceil := bracketCeil_min b curB (curB + remA) (curB + remB) hT
      have hle : bracketCeil b curB (curB + remA) ≤ bracketCeil b curB (curB + remB) := by
        rw [hceil]
        exact min_le_right _ _
      have hTA : bracketCeil b curB (curB + remA) ≤ curB + remA := by
        rw [hceil]
        exact min_le_left _ _
      have hcancel : ∀ x y : ℚ, x + (y - x) = y := by
        intro x y
        ring
      refine add_le_add ?_ ?_
      · refine mul_le_mul_of_nonneg_left ?_ (hr b (List.mem_cons_self b bs))
        exact max_le_max (le_refl 0) (by linarith)
      · refine ih (fun x hx => hr x (List.mem_cons_of_mem b hx)) _ _ _ _ ?_ ?_
        · rw [hcancel, hcancel]
          exact hT
        · rw [hcancel]
          exact hceil

/-- C7: for every fixed other taxable income and filing status,
`calculateCapitalGainsTax` is monotonically non-decreasing in the gains
argument. -/
theorem capital_gains_tax_monotone :
    ∀ (fs : FilingStatus) (otherTaxableIncome g1 g2 : ℚ),
      0 ≤ g1 → g1 ≤ g2 →
      calculateCapitalGainsTax g1 otherTaxableIncome fs ≤
        calculateCapitalGainsTax g2 otherTaxableIncome fs := by
  intro fs other g1 g2 h0 h12
  have hr : ∀ b ∈ getCapitalGainsBrackets fs, 0 ≤ b.rate := by
    cases fs <;>
      · intro b hb
        simp only [getCapitalGainsBrackets, CAPITAL_GAINS_BRACKETS_MFJ,
          CAPITAL_GAINS_BRACKETS_SINGLE] at hb
        fin_cases hb <;> norm_num
  unfold calculateCapitalGainsTax
  by_cases h1 : g1 ≤ 0
  · rw [if_pos h1]
    split_ifs with h2
    · exact le_refl 0
    · exact cgLoop_nonneg _ hr _ _
  · have h2 : ¬g2 ≤ 0 := fun h => h1 (le_trans h12 h)
    rw [if_neg h1, if_neg h2]
    refine cgLoop_mono _ hr _ g1 _ g2 (by linarith) ?_
    exact (min_eq_right (le_add_of_nonneg_right h0)).symm

/-- Witness for C7 at concrete inputs. -/
theorem capital_gains_tax_monotone_witness :
    (0 : ℚ) ≤ 1000 ∧ (1000 : ℚ) ≤ 2000 ∧
    calculateCapitalGainsTax 1000 0 FilingStatus.single ≤
      calculateCapitalGainsTax 2000 0 FilingStatus.single :=
  ⟨by norm_num, by norm_num,
   capital_gains_tax_monotone FilingStatus.single 0 1000 2000 (by norm_num) (by norm_num)⟩

/-- Every Uniform Lifetime Table divisor is at least 2. -/
lemma rmd_table_divisor_ge : ∀ entry ∈ RMD_TABLE, 2 ≤ entry.divisor := by
  intro entry he
  fin_cases he <;> norm_num

/-- The RMD divisor is either 0 (below the start age, which cannot happen
at or above it) or at least 2. -/
lemma getRMDDivisor_cases (age : ℕ) :
    getRMDDivisor age = 0 ∨ 2 ≤ getRMDDivisor age := by
  unfold getRMDDivisor
  by_cases h : age < RMD_START_AGE
  · rw [if_pos h]
    exact Or.inl rfl
  · rw [if_neg h]
    cases hfind : RMD_TABLE.find? (fun e => e.age == age) with
    | some e =>
      simp only [hfind]
      exact Or.inr (rmd_table_divisor_ge e (List.mem_of_find?_eq_some hfind))
    | none =>
      simp only [hfind]
      by_cases h120 : 120 < age
      · rw [if_pos h120]
        exact Or.inr (by norm_num)
      · rw [if_neg h120]
        exact Or.inl rfl

/-- An RMD is never negative. -/
lemma calculateRMD_nonneg (age : ℕ) (balance : ℚ) (t : AccountType) :
    0 ≤ calculateRMD age balance t := by
  unfold calculateRMD
  dsimp only
  split_ifs with h1 h2 h3 h4
  · exact le_refl 0
  · exact le_refl 0
  · exact le_refl 0
  · exact le_refl 0
  · have hb : 0 < balance := not_le.mp h3
    rcases getRMDDivisor_cases age with h | h
    · exact absurd h h4
    · exact div_nonneg hb.le (by linarith)

/-- An RMD never exceeds the balance it is computed from (divisors are at
least 2). -/
lemma calculateRMD_le_balance (age : ℕ) (balance : ℚ) (t : AccountType)
    (hb : 0 ≤ balance) : calculateRMD age balance t ≤ balance := by
  unfold calculateRMD
  dsimp only
  split_ifs with h1 h2 h3 h4
  · exact hb
  · exact hb
  · exact hb
  · exact hb
  · rcases getRMDDivisor_cases age with h | h
    · exact absurd h h4
    · exact div_le_self hb (by linarith)

/-- A mandatory distribution in the simulator is never negative. -/
lemma simMandatory_nonneg (age : ℕ) (account : SimAccount) :
    0 ≤ simMandatory age account := by
  unfold simMandatory
  split_ifs with h
  · exact calculateRMD_nonneg age account.balance _
  · exact le_refl 0

/-- The total mandatory distribution is bounded by the pretax balances. -/
lemma rmd_sum_le_pretax_sum (age : ℕ) :
    ∀ accs : List SimAccount, (∀ a ∈ accs, 0 ≤ a.balance) →
    (accs.map (simMandatory age)).sum ≤
      ((accs.filter (fun a => a.treatment == TaxTreatment.pretax)).map
        SimAccount.balance).sum := by
  intro accs
  induction accs with
  | nil =>
    intro _
    simp
  | cons hd tl ih =>
    intro hbal
    rw [List.map_cons, List.sum_cons, List.filter_cons]
    by_cases hp : hd.treatment = TaxTreatment.pretax
    · rw [if_pos (by simp [hp])]
      rw [List.map_cons, List.sum_cons]
      refine add_le_add ?_ (ih (fun a ha => hbal a (List.mem_cons_of_mem hd ha)))
      unfold simMandatory
      rw [if_pos hp]
      exact calculateRMD_le_balance age hd.balance _ (hbal hd (List.mem_cons_self hd tl))
    · rw [if_neg (by simp [hp])]
      have h0 : simMandatory age hd = 0 := by
        unfold simMandatory
        rw [if_neg hp]
      rw [h0, zero_add]
      exact ih (fun a ha => hbal a (List.mem_cons_of_mem hd ha))

/-- Balances stay non-negative through `drawFrom`. -/
lemma drawFrom_balances_nonneg (pred : TaxTreatment → Bool) :
    ∀ (accs : List SimAccount) (need : ℚ), 0 ≤ need →
      (∀ a ∈ accs, 0 ≤ a.balance) →
      ∀ a ∈ (drawFrom pred accs need).1, 0 ≤ a.balance := by
  intro accs
  induction accs with
  | nil =>
    intro need _ _ a ha
    rw [drawFrom] at ha
    simp at ha
  | cons hd tl ih =>
    intro need hneed hbal a ha
    rw [drawFrom] at ha
    by_cases hp : pred hd.treatment
    · rw [if_pos hp] at ha
      dsimp only at ha
      rcases List.mem_cons.mp ha with rfl | h
      · exact sub_nonneg.mpr (min_le_right _ _)
      · exact ih (need - min need hd.balance)
          (sub_nonneg.mpr (min_le_left _ _))
          (fun x hx => hbal x (List.mem_cons_of_mem hd hx)) a h
    · rw [if_neg hp] at ha
      dsimp only at ha
      rcases List.mem_cons.mp ha with rfl | h
      · exact hbal a (List.mem_cons_self a tl)
      · exact ih need hneed (fun x hx => hbal x (List.mem_cons_of_mem hd hx)) a h

/-- The helper `drawFrom` withdraws exactly the lesser of the requested amount and
the total balance held by the matching accounts. -/
lemma drawFrom_total_eq_min (pred : TaxTreatment → Bool) :
    ∀ (accs : List SimAccount) (need : ℚ), 0 ≤ need →
      (∀ a ∈ accs, 0 ≤ a.balance) →
      (drawFrom pred accs need).2 =
        min need (((accs.filter (fun a => pred a.treatment)).map
          SimAccount.balance).sum) := by
  intro accs
  induction accs with
  | nil =>
    intro need hneed _
    rw [drawFrom]
    simp only [List.filter_nil, List.map_nil, List.sum_nil]
    exact (min_eq_right hneed).symm
  | cons hd tl ih =>
    intro need hneed hbal
    have hb : 0 ≤ hd.balance := hbal hd (List.mem_cons_self hd tl)
    have htl : ∀ a ∈ tl, 0 ≤ a.balance := fun x hx => hbal x (List.mem_cons_of_mem hd hx)
    have hS : 0 ≤ ((tl.filter (fun a => pred a.treatment)).map SimAccount.balance).sum := by
      refine List.sum_nonneg ?_
      intro x hx
      rcases List.mem_map.mp hx with ⟨a, ha, rfl⟩
      exact htl a (List.mem_of_mem_filter ha)
    rw [drawFrom, List.filter_cons]
    by_cases hp : pred hd.treatment
    · rw [if_pos hp, if_pos hp]
      dsimp only
      rw [ih (need - min need hd.balance) (sub_nonneg.mpr (min_le_left _ _)) htl]
      rw [List.map_cons, List.sum_cons]
      rcases le_total need hd.balance with h | h
      · rw [min_eq_left h, sub_self]
        rw [min_eq_left hS]
        rw [add_zero, min_eq_left (by linarith)]
      · calc min need hd.balance +
              min (need - min need hd.balance)
                ((tl.filter (fun a => pred a.treatment)).map SimAccount.balance).sum
            = hd.balance + min (need - hd.balance)
                ((tl.filter (fun a => pred a.treatment)).map SimAccount.balance).sum := by
              rw [min_eq_right h]
          _ = min (hd.balance + (need - hd.balance))
                (hd.balance +
                  ((tl.filter (fun a => pred a.treatment)).map SimAccount.balance).sum) :=
              (min_add_add_left _ _ _).symm
          _ = min need
                (hd.balance +
                  ((tl.filter (fun a => pred a.treatment)).map SimAccount.balance).sum) := by
              rw [show hd.balance + (need - hd.balance) = need from by ring]
    · rw [if_neg hp, if_neg hp]
      dsimp only
      exact ih need hneed htl

/-- The helper `drawFrom` never withdraws a negative total. -/
lemma drawFrom_total_nonneg (pred : TaxTreatment → Bool)
    (accs : List SimAccount) (need : ℚ) (hneed : 0 ≤ need)
    (hbal : ∀ a ∈ accs, 0 ≤ a.balance) :
    0 ≤ (drawFrom pred accs need).2 := by
  rw [drawFrom_total_eq_min pred accs need hneed hbal]
  refine le_min hneed (List.sum_nonneg ?_)
  intro x hx
  rcases List.mem_map.mp hx with ⟨a, ha, rfl⟩
  exact hbal a (List.mem_of_mem_filter ha)

/-- The helper `drawFrom` never withdraws more than requested. -/
lemma drawFrom_total_le_need (pred : TaxTreatment → Bool)
    (accs : List SimAccount) (need : ℚ) (hneed : 0 ≤ need)
    (hbal : ∀ a ∈ accs, 0 ≤ a.balance) :
    (drawFrom pred accs need).2 ≤ need := by
  rw [drawFrom_total_eq_min pred accs need hneed hbal]
  exact min_le_left _ _

/-- One simulated year preserves non-negative balances, withdraws at least
the mandatory amount, and never withdraws a negative total. -/
lemma simYear_invariants (r fc ts ben : ℚ) (age : ℕ) (accs : List SimAccount)
    (hbal : ∀ a ∈ accs, 0 ≤ a.balance) (hr : -1 ≤ r) :
    (simYear r fc ts ben age accs).1.rmdAmount ≤
        (simYear r fc ts ben age accs).1.totalWithdrawal
    ∧ 0 ≤ (simYear r fc ts ben age accs).1.totalWithdrawal
    ∧ (∀ b ∈ (simYear r fc ts ben age accs).1.remainingBalances, 0 ≤ b)
    ∧ ∀ a ∈ (simYear r fc ts ben age accs).2, 0 ≤ a.balance := by
  unfold simYear
  dsimp only
  set R := (accs.map (simMandatory age)).sum with hR
  set s1 := drawFrom (fun t => t == TaxTreatment.pretax) accs R with hs1
  set n1 := max 0 (ts - ben - R) with hn1
  set s2 := drawFrom (fun t => t == TaxTreatment.pretax) s1.1 (min n1 (max 0 fc)) with hs2
  set s3 := drawFrom (fun t => t == TaxTreatment.roth) s2.1 (n1 - s2.2) with hs3
  set s4 := drawFrom (fun t => t == TaxTreatment.taxable) s3.1 (n1 - s2.2 - s3.2) with hs4
  set s5 := drawFrom (fun t => t == TaxTreatment.hsa) s4.1 (n1 - s2.2 - s3.2 - s4.2) with hs5
  set s6 := drawFrom (fun t => t == TaxTreatment.pretax) s5.1
    (n1 - s2.2 - s3.2 - s4.2 - s5.2) with hs6
  have hR0 : 0 ≤ R := by
    rw [hR]
    refine List.sum_nonneg ?_
    intro x hx
    rcases List.mem_map.mp hx with ⟨a, ha, rfl⟩
    exact simMandatory_nonneg age a
  have hRle := rmd_sum_le_pretax_sum age accs hbal
  have h1bal : ∀ a ∈ s1.1, 0 ≤ a.balance := by
    rw [hs1]
    exact drawFrom_balances_nonneg _ accs R hR0 hbal
  have h1tot : s1.2 = R := by
    rw [hs1, drawFrom_total_eq_min _ accs R hR0 hbal]
    exact min_eq_left hRle
  have hn10 : 0 ≤ n1 := by
    rw [hn1]
    exact le_max_left 0 _
  have hneed2 : 0 ≤ min n1 (max 0 fc) := le_min hn10 (le_max_left 0 fc)
  have h2bal : ∀ a ∈ s2.1, 0 ≤ a.balance := by
    rw [hs2]
    exact drawFrom_balances_nonneg _ s1.1 _ hneed2 h1bal
  have h2tot0 : 0 ≤ s2.2 := by
    rw [hs2]
    exact drawFrom_total_nonneg _ s1.1 _ hneed2 h1bal
  have h2totle : s2.2 ≤ min n1 (max 0 fc) := by
    rw [hs2]
    exact drawFrom_total_le_need _ s1.1 _ hneed2 h1bal
  have hneed3 : 0 ≤ n1 - s2.2 := by
    have := min_le_left n1 (max 0 fc)
    linarith
  have h3bal : ∀ a ∈ s3.1, 0 ≤ a.balance := by
    rw [hs3]
    exact drawFrom_balances_nonneg _ s2.1 _ hneed3 h2bal
  have h3tot0 : 0 ≤ s3.2 := by
    rw [hs3]
    exact drawFrom_total_nonneg _ s2.1 _ hneed3 h2bal
  have h3totle : s3.2 ≤ n1 - s2.2 := by
    rw [hs3]
    exact drawFrom_total_le_need _ s2.1 _ hneed3 h2bal
  have hneed4 : 0 ≤ n1 - s2.2 - s3.2 := by linarith
  have h4bal : ∀ a ∈ s4.1, 0 ≤ a.balance := by
    rw [hs4]
    exact drawFrom_balances_nonneg _ s3.1 _ hneed4 h3bal
  have h4tot0 : 0 ≤ s4.2 := by
    rw [hs4]
    exact drawFrom_total_nonneg _ s3.1 _ hneed4 h3bal
  have h4totle : s4.2 ≤ n1 - s2.2 - s3.2 := by
    rw [hs4]
    exact drawFrom_total_le_need _ s3.1 _ hneed4 h3bal
  have hneed5 : 0 ≤ n1 - s2.2 - s3.2 - s4.2 := by linarith
  have h5bal : ∀ a ∈ s5.1, 0 ≤ a.balance := by
    rw [hs5]
    exact drawFrom_balances_nonneg _ s4.1 _ hneed5 h4bal
  have h5tot0 : 0 ≤ s5.2 := by
    rw [hs5]
    exact drawFrom_total_nonneg _ s4.1 _ hneed5 h4bal
  have h5totle : s5.2 ≤ n1 - s2.2 - s3.2 - s4.2 := by
    rw [hs5]
    exact drawFrom_total_le_need _ s4.1 _ hneed5 h4bal
  have hneed6 : 0 ≤ n1 - s2.2 - s3.2 - s4.2 - s5.2 := by linarith
  have h6bal : ∀ a ∈ s6.1, 0 ≤ a.balance := by
    rw [hs6]
    exact drawFrom_balances_nonneg _ s5.1 _ hneed6 h5bal
  have h6tot0 : 0 ≤ s6.2 := by
    rw [hs6]
    exact drawFrom_total_nonneg _ s5.1 _ hneed6 h5bal
  have hgrow : 0 ≤ 1 + r := by linarith
  refine ⟨?_, ?_, ?_, ?_⟩
  · rw [h1tot]
    linarith
  · rw [h1tot]
    linarith
  · intro b hb
    rcases List.mem_map.mp hb with ⟨a2, ha2, rfl⟩
    rcases List.mem_map.mp ha2 with ⟨a, ha, rfl⟩
    exact mul_nonneg (h6bal a ha) hgrow
  · intro a2 ha2
    rcases List.mem_map.mp ha2 with ⟨a, ha, rfl⟩
    exact mul_nonneg (h6bal a ha) hgrow

/-- The invariants hold in every year of a simulator run. -/
lemma simRun_invariants (r fc it infl ben : ℚ) (retAge : ℕ) :
    ∀ (ages : List ℕ) (accs : List SimAccount),
      (∀ a ∈ accs, 0 ≤ a.balance) → -1 ≤ r →
      ∀ rec ∈ simRun r fc it infl ben retAge ages accs,
        rec.rmdAmount ≤ rec.totalWithdrawal
        ∧ 0 ≤ rec.totalWithdrawal
        ∧ ∀ b ∈ rec.remainingBalances, 0 ≤ b := by
  intro ages
  induction ages with
  | nil =>
    intro accs _ _ rec hrec
    rw [simRun] at hrec
    simp at hrec
  | cons age ages ih =>
    intro accs hbal hr rec hrec
    rw [simRun] at hrec
    have hinv := simYear_invariants r fc
      (it * (1 + infl) ^ (age - retAge)) ben age accs hbal hr
    rcases List.mem_cons.mp hrec with h | h
    · subst h
      exact ⟨hinv.1, hinv.2.1, hinv.2.2.1⟩
    · exact ih _ hinv.2.2.2 hr rec h

/-- C2: in every year simulated by the withdrawal simulator — for every
accounts list with non-negative starting balances and every assumption set
whose retirement-phase return rate is at least -100% — the recorded total
withdrawal is at least that year's mandatory-distribution amount, the
total withdrawal is never negative, and no recorded remaining balance is
negative. -/
theorem withdrawal_simulator_invariants :
    ∀ (accs : List SimAccount) (retirementAge lifeExpectancy : ℕ)
      (safeWithdrawalRate inflationRate retirementReturnRate fillCeiling benefit : ℚ),
      (∀ a ∈ accs, 0 ≤ a.balance) → -1 ≤ retirementReturnRate →
      ∀ rec ∈ simulateWithdrawals accs retirementAge lifeExpectancy
          safeWithdrawalRate inflationRate retirementReturnRate fillCeiling benefit,
        rec.rmdAmount ≤ rec.totalWithdrawal
        ∧ 0 ≤ rec.totalWithdrawal
        ∧ ∀ b ∈ rec.remainingBalances, 0 ≤ b := by
  intro accs retirementAge lifeExpectancy swr infl r fc ben hbal hr rec hrec
  unfold simulateWithdrawals at hrec
  exact simRun_invariants r fc _ infl ben retirementAge _ accs hbal hr rec hrec

/-- Witness for C2: a concrete two-account run over ages 73 to 75. -/
theorem withdrawal_simulator_invariants_witness :
    (∀ a ∈ ([⟨TaxTreatment.pretax, 1000000⟩, ⟨TaxTreatment.roth, 50000⟩] :
        List SimAccount), 0 ≤ a.balance)
    ∧ (-1 : ℚ) ≤ 0.05
    ∧ ∀ rec ∈ simulateWithdrawals
        [⟨TaxTreatment.pretax, 1000000⟩, ⟨TaxTreatment.roth, 50000⟩]
        73 75 0.04 0.02 0.05 20000 10000,
      rec.rmdAmount ≤ rec.totalWithdrawal
      ∧ 0 ≤ rec.totalWithdrawal
      ∧ ∀ b ∈ rec.remainingBalances, 0 ≤ b :=
  ⟨by
    intro a ha
    fin_cases ha <;> norm_num,
   by norm_num,
   withdrawal_simulator_invariants
     [⟨TaxTreatment.pretax, 1000000⟩, ⟨TaxTreatment.roth, 50000⟩]
     73 75 0.04 0.02 0.05 20000 10000
     (by
       intro a ha
       fin_cases ha <;> norm_num)
     (by norm_num)⟩
